import Mathlib

/-!
# Verification of the Tetris state-management core

Shallow embedding of the game's state-transition engine: the `State` /
`Cube` data model, the grid and geometry utilities (`util.ts`), the block
factory and the action variants (`state.ts`), and the top-level reducer.

Modelling conventions:
* JS `number` is modelled as `Int` for the integer-valued quantities
  (grid coordinates, pixel coordinates, score, level, counters) and as
  `Rat` for the random values in `[-1, 1]` produced by the RNG adapter.
* `Math.floor(a / b)` on integer inputs is modelled by `Int.fdiv`
  (floor division); the JS `%` operator is `Int.tmod` (truncated, sign of
  the dividend), which agrees with JS on its uses here.
* The grid is a list of rows of `Option Cube`.  A JS read `grid[r][c]`
  that is out of range yields `undefined` (or throws when `grid[r]` is
  itself `undefined`); the embedding's `cellAt` returns `none` for every
  out-of-range read.  All theorems that depend on grid reads either carry
  in-range hypotheses or, for the out-of-range `Rotate` probe, reason
  about the probed positions explicitly (`rotateProbedCells`).
* `Drop.apply` is recursive in the source with no structural bound; it is
  embedded with explicit fuel (`dropGo`), and fuel-independence is proved
  for every block that lies in the grid, with fuel `20` (the row count)
  sufficient.
-/

namespace Tetris

/-! ## Constants (`types.ts`) -/

namespace Viewport
def CANVAS_WIDTH : Int := 200
def CANVAS_HEIGHT : Int := 400
end Viewport

namespace Constants
def TICK_RATE_MS : Int := 1
def INITIAL_SPEED : Int := 100
def GRID_WIDTH : Int := 10
def GRID_HEIGHT : Int := 20
def MAX_SPEED : Int := 10
end Constants

namespace Cube_Dimensions
def WIDTH : Int := 20
def HEIGHT : Int := 20
end Cube_Dimensions

namespace GRID_RANGE
/-- CANVAS_HEIGHT / Cube_Dimensions.HEIGHT = 20 rows. -/
def NUM_OF_ROWS : Nat := 20
/-- (CANVAS_WIDTH / Cube_Dimensions.WIDTH) / 2 = 5. -/
def COL_MIDPOINT : Nat := 5
/-- CANVAS_WIDTH / Cube_Dimensions.WIDTH = 10 columns. -/
def NUM_OF_COLUMNS : Nat := 10
end GRID_RANGE

namespace Tetrimino
def TETRIMINO_TYPES : List String := ["I", "J", "L", "O", "S", "T", "Z"]
def DEFAULT_CHOICE : Nat := 3
def TETRIMINO_SIZE : Int := 4
end Tetrimino

/-! ## Data model (`types.ts`) -/

structure Cube where
  id : String
  x : Int
  y : Int
  grid_row : Int
  grid_col : Int
  width : String
  height : String
  style : String
  center : Bool
  deriving DecidableEq, Repr

/-- `ReadonlyArray<ReadonlyArray<null | Cube>>`. -/
abbrev Grid : Type := List (List (Option Cube))

structure State where
  gameEnd : Bool
  activeBlock : List Cube
  grid : Grid
  shapePreview : String
  clearBlocks : List Cube
  randomTetriminoType : String
  score : Int
  highScore : Int
  level : Int
  objCount : Int
  deriving DecidableEq

/-! ## Utility functions (`util.ts`) -/

namespace RNG
def m : Int := 0x80000000
def a : Int := 1103515245
def c : Int := 12345
/-- `hash(seed) = (a * seed + c) % m` (JS `%` is truncated remainder). -/
def hash (seed : Int) : Int := Int.tmod (a * seed + c) m
/-- `scale(hash) = (2 * hash) / (m - 1) - 1`, exact rational arithmetic. -/
def scale (h : Int) : Rat := (2 * h : Rat) / ((m : Rat) - 1) - 1
end RNG

/-- `Math.max`-style generic max from `util.ts`: `first > second ? first : second`. -/
def max' (first second : Int) : Int := if first > second then first else second

/-- Read a row of the grid; JS `grid[r]` is `undefined` out of range
(modelled as `[]`). -/
def rowAt (g : Grid) (r : Int) : List (Option Cube) :=
  if 0 ≤ r then List.getD g r.toNat [] else []

/-- Read a cell of the grid; JS out-of-range reads yield `undefined`
(modelled as `none`). -/
def cellAt (g : Grid) (r ccol : Int) : Option Cube :=
  if 0 ≤ ccol then List.getD (rowAt g r) ccol.toNat none else none

/-- Cell read with `Nat` indices (used by the rebuilt-grid lemmas). -/
def cellAtN (g : Grid) (i j : Nat) : Option Cube :=
  List.getD (List.getD g i []) j none

/-- `Math.floor(col / NUM_OF_COLUMNS * CANVAS_WIDTH)` in exact arithmetic. -/
def calculateXcoord (col : Int) : Int :=
  Int.fdiv (col * Viewport.CANVAS_WIDTH) (GRID_RANGE.NUM_OF_COLUMNS : Int)

/-- `Math.floor(row / NUM_OF_ROWS * CANVAS_HEIGHT)` in exact arithmetic. -/
def calculateYcoord (row : Int) : Int :=
  Int.fdiv (row * Viewport.CANVAS_HEIGHT) (GRID_RANGE.NUM_OF_ROWS : Int)

/-- `removeDuplicates`: keeps the first occurrence of each element
(`list.filter((item, index) => list.indexOf(item) === index)`). -/
def removeDuplicates (l : List Int) : List Int :=
  l.foldl (fun acc x => if x ∈ acc then acc else acc ++ [x]) []

/-- `cube.grid_row >= NUM_OF_ROWS - 1 || cube.grid_row < 0`. -/
def checkCubeRowExceedsBoundaries (cube : Cube) : Bool :=
  decide (cube.grid_row ≥ (GRID_RANGE.NUM_OF_ROWS : Int) - 1) || decide (cube.grid_row < 0)

/-- `cube.grid_col < 0 || cube.grid_col > NUM_OF_COLUMNS - 1`. -/
def checkCubeColExceedsBoundaries (cube : Cube) : Bool :=
  decide (cube.grid_col < 0) || decide (cube.grid_col > (GRID_RANGE.NUM_OF_COLUMNS : Int) - 1)

/-- `cube.grid_col <= 0 || grid[row][col - 1] !== null`. -/
def cantMoveLeft (g : Grid) (cube : Cube) : Bool :=
  decide (cube.grid_col ≤ 0) || (cellAt g cube.grid_row (cube.grid_col - 1)).isSome

/-- `cube.grid_col >= NUM_OF_COLUMNS - 1 || grid[row][col + 1] !== null`. -/
def cantMoveRight (g : Grid) (cube : Cube) : Bool :=
  decide (cube.grid_col ≥ (GRID_RANGE.NUM_OF_COLUMNS : Int) - 1) ||
    (cellAt g cube.grid_row (cube.grid_col + 1)).isSome

/-- `grid[row + 1][col] !== null`. -/
def cantMoveDown (g : Grid) (cube : Cube) : Bool :=
  (cellAt g (cube.grid_row + 1) cube.grid_col).isSome

/-- `grid[row][col] !== null`. -/
def checkCurrentCell (g : Grid) (cube : Cube) : Bool :=
  (cellAt g cube.grid_row cube.grid_col).isSome

/-- `conditions.some(condition => condition(cube))`. -/
def checkCollisions (conditions : List (Cube → Bool)) (cube : Cube) : Bool :=
  conditions.any (fun condition => condition cube)

/-- `block.filter(checkCollisions(conditions)).length > 0`. -/
def checkBlockCollision (conditions : List (Cube → Bool)) (block : List Cube) : Bool :=
  decide (0 < (block.filter (checkCollisions conditions)).length)

/-- `setBlockInArray`: replace each grid cell by the active-block cube
occupying that position, if any. -/
def setBlockInArray (gridArray : Grid) (activeBlock : List Cube) : Grid :=
  gridArray.mapIdx (fun rowIndex row =>
    row.mapIdx (fun colIndex cell =>
      match activeBlock.find? (fun cube =>
          cube.grid_row == (rowIndex : Int) && cube.grid_col == (colIndex : Int)) with
      | some cubeInActiveBlock => some cubeInActiveBlock
      | none => cell))

/-- Unique row indexes of the cubes of a block. -/
def getRecentlyPlacedRows (activeBlock : List Cube) : List Int :=
  removeDuplicates (activeBlock.map (fun cube => cube.grid_row))

/-- Rows among the candidates in which every column is occupied. -/
def getDeletingRows (gridArray : Grid) (rowIndexes : List Int) : List Int :=
  rowIndexes.filter (fun rowIndex => (rowAt gridArray rowIndex).all (fun column => column.isSome))

/-- Every placed cube whose row is in the deleting set. -/
def getRemovedCubes (grid : Grid) (deletingRowIndexes : List Int) : List Cube :=
  ((grid.map (fun row =>
      row.filter (fun cell => cell.any (fun cube => deletingRowIndexes.contains cube.grid_row)))).flatten).filterMap id

/-- `Math.min(...rows)`; only ever invoked on a non-empty list in the source
(JS would give `Infinity` on `[]`; the `0` default is never exercised). -/
def mathMin (l : List Int) : Int :=
  match l with
  | [] => 0
  | x :: xs => xs.foldl min x

/-- `generate2DArray`: a full NUM_OF_ROWS × NUM_OF_COLUMNS grid built from a
cell-generation function. -/
def generate2DArray (generateCell : Nat → Nat → Option Cube) : Grid :=
  (List.range GRID_RANGE.NUM_OF_ROWS).map (fun rowIndex =>
    (List.range GRID_RANGE.NUM_OF_COLUMNS).map (fun colIndex => generateCell rowIndex colIndex))

/-- Game-end condition: some cell of row 0 is occupied. -/
def isColumnFilled (grid : Grid) : Bool :=
  (rowAt grid 0).any (fun cell => cell.isSome)

/-! ## Block factory (`state.ts`) -/

/-- `GenerateBlock.tetriminoLayouts`: layout matrix and pivot cell per shape.
The square's pivot is the sentinel `{row: Infinity, col: Infinity}` in the
source — it never matches any cell index, modelled here as `none`. -/
def tetriminoLayouts : String → Option (List (List Nat) × Option (Nat × Nat))
  | "I" => some ([[1, 1, 1, 1]], some (0, 1))
  | "J" => some ([[1, 0, 0], [1, 1, 1]], some (1, 1))
  | "L" => some ([[0, 0, 1], [1, 1, 1]], some (1, 1))
  | "O" => some ([[1, 1], [1, 1]], none)
  | "S" => some ([[0, 1, 1], [1, 1, 0]], some (1, 1))
  | "T" => some ([[0, 1, 0], [1, 1, 1]], some (1, 1))
  | "Z" => some ([[1, 1, 0], [0, 1, 1]], some (1, 1))
  | _ => none

/-- `createCube(rowIndex, colIndex, cubeCount)(isCenter)`.  The source id's
last component is `RNG.scale(RNG.hash(rowIndex + colIndex))` rendered as a
decimal string; the id is purely cosmetic (only its uniqueness matters), and
the embedding renders the underlying integer hash instead of its scaled
rational so that states stay kernel-computable. -/
def createCube (rowIndex colIndex : Int) (cubeCount : Int) (isCenter : Bool) : Cube :=
  { id := toString cubeCount ++ "-" ++ toString rowIndex ++ "-" ++ toString colIndex ++ "-"
      ++ toString (RNG.hash (rowIndex + colIndex))
    x := calculateXcoord colIndex
    y := calculateYcoord rowIndex
    grid_row := rowIndex
    grid_col := colIndex
    width := toString Cube_Dimensions.WIDTH
    height := toString Cube_Dimensions.HEIGHT
    style := "fill: green"
    center := isCenter }

/-- `createBlock(tetriminoType)(cubeCount)`: instantiate one cube per `1` in
the layout, shifted right by `COL_MIDPOINT - 1`, marking the pivot cube.
An unknown shape key makes the source throw on destructuring `undefined`;
that branch is unreachable from the game and modelled as `[]`. -/
def createBlock (tetriminoType : String) (cubeCount : Int) : List Cube :=
  match tetriminoLayouts tetriminoType with
  | none => []
  | some (layout, center) =>
    ((layout.mapIdx (fun rowIndex row =>
        row.mapIdx (fun colIndex col =>
          if col = 1 then
            some (createCube rowIndex (colIndex + GRID_RANGE.COL_MIDPOINT - 1) cubeCount
              (center == some (rowIndex, colIndex)))
          else none))).flatten).filterMap id

def startingBlock : List Cube := createBlock "O" 4

def initialState : State :=
  { gameEnd := false
    grid := generate2DArray (fun _ _ => none)
    score := 0
    highScore := 0
    level := 0
    activeBlock := startingBlock
    shapePreview := "T"
    randomTetriminoType := "J"
    clearBlocks := []
    objCount := startingBlock.length }

/-! ## `removeRowsAndShiftDown` (`util.ts`), split into named stages -/

/-- The cubes kept by `removeRowsAndShiftDown`'s `checkCellAgainstRow`
filter: every placed cube whose row is not being deleted. -/
def survivors (grid : Grid) (deletingRowIndexes : List Int) : List Cube :=
  ((grid.map (fun row =>
      row.filter (fun cell =>
        cell.any (fun cube => !(deletingRowIndexes.contains cube.grid_row))))).flatten).filterMap id

/-- `Tick.moveCube(amount)`: move a cube down `amount` rows, recomputing `y`. -/
def moveCube (amount : Int) (cube : Cube) : Cube :=
  { cube with
    grid_row := cube.grid_row + amount
    y := calculateYcoord (cube.grid_row + amount) }

/-- Surviving cubes after `checkIfCubeAboveRemovedRow`: cubes strictly above
the minimum deleted row move down by the number of deleted rows. -/
def shiftedSurvivors (grid : Grid) (deletingRowIndexes : List Int) : List Cube :=
  (survivors grid deletingRowIndexes).map (fun cube =>
    if cube.grid_row < mathMin deletingRowIndexes
    then moveCube deletingRowIndexes.length cube else cube)

/-- `removeRowsAndShiftDown`: rebuild a full grid from the shifted surviving
cubes by position lookup (`getCube`). -/
def removeRowsAndShiftDown (grid : Grid) (deletingRowIndexes : List Int) : Grid :=
  generate2DArray (fun rowIndex colIndex =>
    (shiftedSurvivors grid deletingRowIndexes).find? (fun cube =>
      cube.grid_row == (rowIndex : Int) && (colIndex : Int) == cube.grid_col))

/-! ## Action variants (`state.ts`) -/

namespace GenerateBlock

/-- `checkIndex`: `0 <= index < TETRIMINO_TYPES.length`. -/
def checkIndex (tetriminoTypeIndex : Int) : Bool :=
  decide (tetriminoTypeIndex ≥ 0) &&
    decide (tetriminoTypeIndex < (Tetrimino.TETRIMINO_TYPES.length : Int))

/-- `GenerateBlock.apply`: stage the randomly chosen shape, falling back to
the default on an out-of-range index. -/
def apply (tetriminoTypeIndex : Int) (s : State) : State :=
  { s with
    randomTetriminoType :=
      if checkIndex tetriminoTypeIndex
      then Tetrimino.TETRIMINO_TYPES.getD tetriminoTypeIndex.toNat ""
      else Tetrimino.TETRIMINO_TYPES.getD Tetrimino.DEFAULT_CHOICE "" }

end GenerateBlock

namespace Tick

/-- `Tick.handleBlockClear`: clear full rows, shift, score and re-level. -/
def handleBlockClear (state : State) (deletingRows : List Int) : State :=
  let removedCubes := getRemovedCubes state.grid deletingRows
  let newScore := state.score + (GRID_RANGE.NUM_OF_COLUMNS : Int) * deletingRows.length
  { state with
    shapePreview := state.randomTetriminoType
    grid := removeRowsAndShiftDown state.grid deletingRows
    score := newScore
    level := Int.fdiv newScore (GRID_RANGE.NUM_OF_COLUMNS : Int)
    clearBlocks := state.clearBlocks ++ removedCubes }

/-- `Tick.handleCollisions`: lock the block, spawn the preview shape, detect
spawn overlap, and clear any full rows among the recently placed ones. -/
def handleCollisions (state : State) : State :=
  let updatedGrid := setBlockInArray state.grid state.activeBlock
  let newActiveBlock := createBlock state.shapePreview (Tetrimino.TETRIMINO_SIZE + state.objCount)
  let spawnOverlap := checkBlockCollision [checkCurrentCell updatedGrid] newActiveBlock
  let recentlyPlacedRows := getRecentlyPlacedRows state.activeBlock
  let deletingRows := getDeletingRows updatedGrid recentlyPlacedRows
  if deletingRows.length > 0 then
    handleBlockClear
      { state with
        activeBlock := if !spawnOverlap then newActiveBlock else state.activeBlock
        grid := updatedGrid
        objCount := state.objCount + newActiveBlock.length
        gameEnd := isColumnFilled updatedGrid || spawnOverlap
        clearBlocks := state.clearBlocks }
      deletingRows
  else
    { state with
      activeBlock := if !spawnOverlap then newActiveBlock else state.activeBlock
      shapePreview := state.randomTetriminoType
      grid := updatedGrid
      objCount := state.objCount + newActiveBlock.length
      gameEnd := isColumnFilled updatedGrid || spawnOverlap }

/-- `Tick.apply`: pass the state through when ended, lock on collision, and
otherwise let the active block fall one row. -/
def apply (_elapsed : Int) (state : State) : State :=
  let conditions := [checkCubeRowExceedsBoundaries, cantMoveDown state.grid]
  let isCollision := checkBlockCollision conditions state.activeBlock
  if state.gameEnd then state
  else if isCollision then handleCollisions state
  else
    { state with
      activeBlock := state.activeBlock.map (moveCube 1)
      gameEnd := isColumnFilled state.grid }

end Tick

namespace Move

/-- `Move.updateCubeX`: shift a cube's column (and x) by the direction. -/
def updateCubeX (direction : Int) (cube : Cube) : Cube :=
  { cube with
    grid_col := cube.grid_col + direction
    x := calculateXcoord (cube.grid_col + direction) }

/-- `Move.apply`: shift the block sideways unless blocked. -/
def apply (direction : Int) (s : State) : State :=
  let isOutOfBoundaries := fun (cube : Cube) =>
    if direction > 0 then cantMoveRight s.grid cube else cantMoveLeft s.grid cube
  { s with
    activeBlock :=
      if checkBlockCollision [isOutOfBoundaries] s.activeBlock
      then s.activeBlock else s.activeBlock.map (updateCubeX direction) }

end Move

namespace Restart

/-- `Restart.apply`: reset to the initial state when ended, carrying over the
high score, the staged random shape and the object counter, and marking every
cube for removal. No-op while the game is still active. -/
def apply (state : State) : State :=
  let removingCubes : List Cube :=
    ((state.grid.map (fun row => row.filter (fun cell => cell.isSome))).flatten).filterMap id
  if state.gameEnd then
    { initialState with
      activeBlock := createBlock state.randomTetriminoType (state.objCount + Tetrimino.TETRIMINO_SIZE)
      shapePreview := state.randomTetriminoType
      highScore := max' state.highScore state.score
      grid := generate2DArray (fun _ _ => none)
      objCount := state.objCount + Tetrimino.TETRIMINO_SIZE * 3
      gameEnd := false
      clearBlocks := state.clearBlocks ++ removingCubes ++ state.activeBlock }
  else state

end Restart

inductive RotDirection where
  | clockwise
  | anticlockwise
  deriving DecidableEq, Repr

namespace Rotate

/-- One cube of the 90° rotation about the pivot (`centerCube`). -/
def rotateCube (direction : RotDirection) (centerCube : Cube) (cube : Cube) : Cube :=
  let newRow :=
    if direction = RotDirection.clockwise
    then centerCube.grid_row - centerCube.grid_col + cube.grid_col
    else centerCube.grid_row + centerCube.grid_col - cube.grid_col
  let newCol :=
    if direction = RotDirection.clockwise
    then centerCube.grid_col + centerCube.grid_row - cube.grid_row
    else centerCube.grid_col - centerCube.grid_row + cube.grid_row
  { cube with
    grid_row := newRow
    grid_col := newCol
    x := calculateXcoord newCol
    y := calculateYcoord newRow }

/-- `canRotate`: the rotated block passes the occupancy and boundary checks.
Note the source evaluates `checkCurrentCell` first for every cube. -/
def canRotate (g : Grid) (block : List Cube) : Bool :=
  !(checkBlockCollision
      [checkCurrentCell g, checkCubeRowExceedsBoundaries, checkCubeColExceedsBoundaries] block)

/-- `Rotate.apply`: rotate about the center cube when one exists and the
rotated block passes `canRotate`; otherwise keep the block unchanged. -/
def apply (direction : RotDirection) (state : State) : State :=
  match state.activeBlock.find? (fun cube => cube.center) with
  | none => state
  | some centerCube =>
    let newActiveBlock := state.activeBlock.map (rotateCube direction centerCube)
    { state with
      activeBlock :=
        if canRotate state.grid newActiveBlock then newActiveBlock else state.activeBlock }

/-- The grid positions at which `checkCurrentCell` is evaluated during
`Rotate.apply`: `canRotate` runs `checkCurrentCell` (first in its condition
list, hence unconditionally) on every cube of the tentative rotated block. -/
def probedCells (direction : RotDirection) (state : State) : List (Int × Int) :=
  match state.activeBlock.find? (fun cube => cube.center) with
  | none => []
  | some centerCube =>
    (state.activeBlock.map (rotateCube direction centerCube)).map (fun cube =>
      (cube.grid_row, cube.grid_col))

end Rotate

namespace Drop

/-- `canDrop`: the (already moved) block passes the fall-collision check. -/
def canDrop (g : Grid) (block : List Cube) : Bool :=
  !(checkBlockCollision [checkCubeRowExceedsBoundaries, cantMoveDown g] block)

/-- `Drop.apply` is unboundedly recursive in the source:
`canDrop(newState.activeBlock) ? this.apply(newState) : state`. `dropGo`
is the same recursion with explicit fuel; `drop_go_fuel_independent` below
shows any fuel beyond `18 - row` of any block cube gives the same result,
so fuel `NUM_OF_ROWS = 20` computes the recursion's true result for every
block inside the grid. -/
def dropGo (g : Grid) : Nat → State → State
  | 0, state => state
  | fuel + 1, state =>
    let newState := { state with activeBlock := state.activeBlock.map (moveCube 1) }
    if canDrop g newState.activeBlock then dropGo g fuel newState else state

/-- `Drop.apply`, computed with fuel `NUM_OF_ROWS`. -/
def apply (state : State) : State := dropGo state.grid GRID_RANGE.NUM_OF_ROWS state

end Drop

/-! ## Actions and the reducer -/

/-- The closed set of action variants (`main.ts` constructs `Move(±1)`,
`Rotate('clockwise'|'anticlockwise')`, `Tick(elapsed)`, `Drop()`, `Restart()`
and `GenerateBlock(index)`). -/
inductive Action where
  | tick (elapsed : Int)
  | move (direction : Int)
  | rotate (direction : RotDirection)
  | drop
  | restart
  | generateBlock (tetriminoTypeIndex : Int)
  deriving DecidableEq, Repr

def Action.isTick : Action → Bool
  | Action.tick _ => true
  | _ => false

/-- `action.apply(s)` for each variant. -/
def applyAction : Action → State → State
  | Action.tick elapsed, s => Tick.apply elapsed s
  | Action.move direction, s => Move.apply direction s
  | Action.rotate direction, s => Rotate.apply direction s
  | Action.drop, s => Drop.apply s
  | Action.restart, s => Restart.apply s
  | Action.generateBlock index, s => GenerateBlock.apply index s

/-- The level-dependent tick gate modulus. -/
def speedMultiplier (s : State) : Int :=
  max' (Constants.INITIAL_SPEED - s.level * 10) Constants.MAX_SPEED

/-- `reduceState`: apply the action unless it is a Tick whose elapsed counter
is not a multiple of the speed modulus. -/
def reduceState (s : State) (action : Action) : State :=
  match action with
  | Action.tick elapsed =>
    if Int.tmod elapsed (speedMultiplier s) = 0 then Tick.apply elapsed s else s
  | _ => applyAction action s

/-- States reachable from `initialState` by folding `reduceState` over a
sequence of actions. -/
def Reachable (s : State) : Prop :=
  ∃ actions : List Action, s = actions.foldl reduceState initialState

/-! ## Concrete test fixtures -/

/-- A placed cube at grid position `(r, c)` with coherent pixel coordinates,
as produced by locking blocks into the grid. -/
def placedCube (r ccol : Int) : Cube :=
  { id := "placed-" ++ toString r ++ "-" ++ toString ccol
    x := calculateXcoord ccol
    y := calculateYcoord r
    grid_row := r
    grid_col := ccol
    width := toString Cube_Dimensions.WIDTH
    height := toString Cube_Dimensions.HEIGHT
    style := "fill: green"
    center := false }

/-- A full grid holding a placed cube exactly at the positions selected by
`f`. -/
def mkGrid (f : Nat → Nat → Bool) : Grid :=
  generate2DArray (fun i j => if f i j then some (placedCube i j) else none)

/-- A grid is coherent when every cell holds a cube bearing that cell's
coordinates (the invariant `setBlockInArray` and `removeRowsAndShiftDown`
maintain for locked cubes). -/
def Coherent (g : Grid) : Prop :=
  ∀ i j cube, cellAtN g i j = some cube → cube.grid_row = (i : Int) ∧ cube.grid_col = (j : Int)

/-! ## Shared lemmas -/

theorem checkBlockCollision_eq_true_iff (conditions : List (Cube → Bool)) (block : List Cube) :
    checkBlockCollision conditions block = true ↔
      ∃ cube ∈ block, checkCollisions conditions cube = true := by
  simp [checkBlockCollision, List.length_pos, List.filter_eq_nil_iff]

theorem cellAtN_generate2DArray (h : Nat → Nat → Option Cube) (i j : Nat) :
    cellAtN (generate2DArray h) i j =
      if i < GRID_RANGE.NUM_OF_ROWS then
        (if j < GRID_RANGE.NUM_OF_COLUMNS then h i j else none)
      else none := by
  unfold cellAtN generate2DArray
  simp only [List.getD_eq_getElem?_getD, List.getElem?_map]
  by_cases hi : i < GRID_RANGE.NUM_OF_ROWS
  · rw [List.getElem?_range hi]
    simp only [Option.map_some', Option.getD_some, if_pos hi, List.getElem?_map]
    by_cases hj : j < GRID_RANGE.NUM_OF_COLUMNS
    · rw [List.getElem?_range hj]
      simp [hj]
    · have hnone : (List.range GRID_RANGE.NUM_OF_COLUMNS)[j]? = none := by
        rw [List.getElem?_eq_none]
        simp [Nat.le_of_not_lt hj]
      simp [hnone, hj]
  · have hnone : (List.range GRID_RANGE.NUM_OF_ROWS)[i]? = none := by
      rw [List.getElem?_eq_none]
      simp [Nat.le_of_not_lt hi]
    simp [hnone, hi]

theorem mkGrid_coherent (f : Nat → Nat → Bool) : Coherent (mkGrid f) := by
  intro i j cube hcell
  rw [mkGrid, cellAtN_generate2DArray] at hcell
  by_cases hi : i < GRID_RANGE.NUM_OF_ROWS <;> simp [hi] at hcell
  by_cases hj : j < GRID_RANGE.NUM_OF_COLUMNS <;> simp [hj] at hcell
  by_cases hf : f i j <;> simp [hf] at hcell
  subst hcell
  exact ⟨rfl, rfl⟩

theorem find?_eq_some_of_unique {l : List Cube} {p : Cube → Bool} {a : Cube}
    (ha : a ∈ l) (hpa : p a = true) (uniq : ∀ b ∈ l, p b = true → b = a) :
    l.find? p = some a := by
  induction l with
  | nil => cases ha
  | cons x xs ih =>
    by_cases hx : p x = true
    · have hxa : x = a := uniq x (List.mem_cons_self _ _) hx
      rw [List.find?_cons_of_pos _ hx, hxa]
    · have hxa : a ≠ x := fun h => hx (h ▸ hpa)
      have ha' : a ∈ xs := by
        rcases List.mem_cons.mp ha with h | h
        · exact absurd h hxa
        · exact h
      rw [List.find?_cons_of_neg _ hx]
      exact ih ha' (fun b hb hpb => uniq b (List.mem_cons_of_mem _ hb) hpb)

/-! ## Claim C1 -/

/-- A game-over state: the initial position with the `gameEnd` flag set. -/
def c1State : State := { initialState with gameEnd := true }

/-- C1 counterexample: with the game ended, the non-Restart action
`GenerateBlock(0)` does NOT pass the state through unchanged — it still
overwrites `randomTetriminoType` (from `"J"` to `"I"`), so the claim that
every action other than Restart is an ended-state no-op is false. -/
theorem c1_counterexample : reduceState c1State (Action.generateBlock 0) ≠ c1State := by
  decide

/-- C1 amended: while `gameEnd` is true, a `Tick` action (throttled or not)
returns the state unchanged through the reducer; the other non-Restart
actions (Move, Rotate, Drop, GenerateBlock) do not consult `gameEnd` and are
applied normally. -/
theorem c1_tick_noop_when_ended (s : State) (elapsed : Int) (h : s.gameEnd = true) :
    reduceState s (Action.tick elapsed) = s := by
  simp [reduceState, Tick.apply, h]

/-- C1 witness: the amended theorem at `c1State` with elapsed counter 0. -/
theorem c1_witness : reduceState c1State (Action.tick 0) = c1State :=
  c1_tick_noop_when_ended c1State 0 rfl

/-! ## Claim C5 -/

/-- A cube sitting in the last column (index `NUM_OF_COLUMNS - 1 = 9`). -/
def c5Cube : Cube := placedCube 0 9

/-- C5 counterexample: the claim says a cube at column
`NUM_OF_COLUMNS - 1 = 9` exceeds the column boundary, but
`checkCubeColExceedsBoundaries` uses the strict comparison
`grid_col > NUM_OF_COLUMNS - 1` and returns `false` at column 9. -/
theorem c5_counterexample :
    c5Cube.grid_col = (GRID_RANGE.NUM_OF_COLUMNS : Int) - 1 ∧
    checkCubeColExceedsBoundaries c5Cube = false := by
  decide

/-- C5 amended: the exceeds-column-boundary predicate holds iff the cube's
column is `< 0` or strictly greater than `NUM_OF_COLUMNS - 1` (i.e. `≥ 10`),
so column 9 does not exceed. -/
theorem c5_col_boundary (cube : Cube) :
    checkCubeColExceedsBoundaries cube = true ↔
      (cube.grid_col < 0 ∨ cube.grid_col > (GRID_RANGE.NUM_OF_COLUMNS : Int) - 1) := by
  simp [checkCubeColExceedsBoundaries]

/-! ## Claim C7 -/

/-- C7: the reducer computes `speed = max(INITIAL_SPEED - level*10, MAX_SPEED)`;
a Tick whose elapsed counter is not a multiple of that speed is dropped
(state returned unchanged), every non-Tick action is applied via its own
apply function, and a Tick whose elapsed counter is a multiple of the speed
is applied via `Tick.apply`. -/
theorem c7_speed_gate (s : State) :
    speedMultiplier s = max' (Constants.INITIAL_SPEED - s.level * 10) Constants.MAX_SPEED ∧
    (∀ elapsed : Int, Int.tmod elapsed (speedMultiplier s) ≠ 0 →
      reduceState s (Action.tick elapsed) = s) ∧
    (∀ a : Action, a.isTick = false → reduceState s a = applyAction a s) ∧
    (∀ n : Int, reduceState s (Action.tick (n * speedMultiplier s)) =
      Tick.apply (n * speedMultiplier s) s) := by
  refine ⟨rfl, fun elapsed h => by simp [reduceState, h], fun a ha => ?_, fun n => ?_⟩
  · cases a <;> simp_all [reduceState, applyAction, Action.isTick]
  · simp [reduceState, Int.mul_tmod_left]

/-- C7 witness: at the initial state (level 0, speed 100) a Tick with elapsed
counter 7 is dropped, a Restart action is applied directly, and a Tick at a
multiple of the speed is applied via `Tick.apply`. -/
theorem c7_witness :
    reduceState initialState (Action.tick 7) = initialState ∧
    reduceState initialState Action.restart = applyAction Action.restart initialState ∧
    reduceState initialState (Action.tick (2 * speedMultiplier initialState)) =
      Tick.apply (2 * speedMultiplier initialState) initialState :=
  ⟨(c7_speed_gate initialState).2.1 7 (by decide),
   (c7_speed_gate initialState).2.2.1 Action.restart (by decide),
   (c7_speed_gate initialState).2.2.2 2⟩

/-! ## Claim C9 -/

/-- Index formula of `randomTetrominoType$` in `main.ts`:
`Math.abs(Math.floor(randNum * TETRIMINO_TYPES.length - 1))` in exact
rational arithmetic — note the absolute value sits OUTSIDE the floor. -/
def tetriminoTypeIndexOf (randNum : Rat) : Int :=
  |⌊randNum * (Tetrimino.TETRIMINO_TYPES.length : Rat) - 1⌋|

/-- Modelled from the spec: the claimed index formula `floor(|v| × 7 − 1)`,
with the absolute value inside the floor. -/
def specTetriminoTypeIndex (v : Rat) : Int :=
  ⌊|v| * (Tetrimino.TETRIMINO_TYPES.length : Rat) - 1⌋

/-- The first random value of the RNG stream: `main.ts` seeds
`createRngStreamFromSource(interval(200))` with 6 and the stream scans with
`RNG.hash` then maps `RNG.scale`, so its first element is
`scale(hash(6))` ≈ −0.8336. -/
def rngFirstValue : Rat := RNG.scale (RNG.hash 6)

/-- C9 counterexample: at the very first value the RNG stream produces
(`scale(hash(6)) = −1790177905/2147483647`), the index the code hands to
GenerateBlock is `|⌊7v − 1⌋| = 7`, not the claimed `⌊|v|·7 − 1⌋ = 4`; the
claimed formula is wrong, and (being an absolute value) the real index can
never be −1. -/
theorem c9_counterexample :
    tetriminoTypeIndexOf rngFirstValue = 7 ∧
    specTetriminoTypeIndex rngFirstValue = 4 ∧
    tetriminoTypeIndexOf rngFirstValue ≠ specTetriminoTypeIndex rngFirstValue := by
  have hh : RNG.hash 6 = 178652871 := by decide
  have hlen : (Tetrimino.TETRIMINO_TYPES.length : Rat) = 7 := by
    norm_num [Tetrimino.TETRIMINO_TYPES]
  unfold tetriminoTypeIndexOf specTetriminoTypeIndex rngFirstValue RNG.scale RNG.m
  rw [hh, hlen]
  norm_num
  have habs : |(1790177905 : Rat) / 2147483647| = 1790177905 / 2147483647 := by
    rw [abs_of_nonneg]
    norm_num
  rw [habs]
  norm_num

/-- C9 amended: the shape index handed to GenerateBlock equals
`|⌊v·7 − 1⌋|`; it is always ≥ 0 (so never −1), for `v ∈ [−1, 1]` it is at
most 8 (so 7 and 8 are the possible out-of-range values), and whenever it is
out of range (≥ 7) GenerateBlock's bounds check substitutes the default
shape `TETRIMINO_TYPES[DEFAULT_CHOICE] = "O"`. -/
theorem c9_index_bounds_and_fallback (v : Rat) (s : State) (h1 : -1 ≤ v) (h2 : v ≤ 1) :
    0 ≤ tetriminoTypeIndexOf v ∧ tetriminoTypeIndexOf v ≤ 8 ∧
    (7 ≤ tetriminoTypeIndexOf v →
      (GenerateBlock.apply (tetriminoTypeIndexOf v) s).randomTetriminoType = "O") := by
  have hlen : (Tetrimino.TETRIMINO_TYPES.length : Rat) = 7 := by
    norm_num [Tetrimino.TETRIMINO_TYPES]
  have hub : v * (Tetrimino.TETRIMINO_TYPES.length : Rat) - 1 ≤ 6 := by
    rw [hlen]; nlinarith
  have hlb : (-8 : Rat) ≤ v * (Tetrimino.TETRIMINO_TYPES.length : Rat) - 1 := by
    rw [hlen]; nlinarith
  have hfub : ⌊v * (Tetrimino.TETRIMINO_TYPES.length : Rat) - 1⌋ ≤ 6 := by
    calc ⌊v * (Tetrimino.TETRIMINO_TYPES.length : Rat) - 1⌋ ≤ ⌊(6 : Rat)⌋ :=
          Int.floor_le_floor hub
      _ = 6 := by norm_num
  have hflb : (-8 : Int) ≤ ⌊v * (Tetrimino.TETRIMINO_TYPES.length : Rat) - 1⌋ := by
    rw [Int.le_floor]
    exact_mod_cast hlb
  refine ⟨abs_nonneg _, ?_, ?_⟩
  · unfold tetriminoTypeIndexOf
    rw [abs_le]
    constructor <;> omega
  · intro h7
    have hchk : GenerateBlock.checkIndex (tetriminoTypeIndexOf v) = false := by
      unfold GenerateBlock.checkIndex
      have : ¬(tetriminoTypeIndexOf v < (Tetrimino.TETRIMINO_TYPES.length : Int)) := by
        simp only [Tetrimino.TETRIMINO_TYPES]
        norm_num
        omega
      simp [this]
    unfold GenerateBlock.apply
    rw [hchk]
    simp [Tetrimino.TETRIMINO_TYPES, Tetrimino.DEFAULT_CHOICE]

/-- C9 witness: the amended theorem at `v = −1`, where the index is
`|⌊−8⌋| = 8`, out of range, so the default shape is substituted. -/
theorem c9_witness :
    0 ≤ tetriminoTypeIndexOf (-1) ∧ tetriminoTypeIndexOf (-1) ≤ 8 ∧
    (7 ≤ tetriminoTypeIndexOf (-1) →
      (GenerateBlock.apply (tetriminoTypeIndexOf (-1)) initialState).randomTetriminoType = "O") :=
  c9_index_bounds_and_fallback (-1) initialState (by decide) (by decide)

/-! ## Claim C2 -/

/-- Drop's recursion never touches `clearBlocks`. -/
theorem dropGo_clearBlocks (g : Grid) :
    ∀ (fuel : Nat) (s : State), (Drop.dropGo g fuel s).clearBlocks = s.clearBlocks := by
  intro fuel
  induction fuel with
  | zero => intro s; rfl
  | succ n ih =>
    intro s
    unfold Drop.dropGo
    dsimp only
    split
    · exact ih _
    · rfl

/-- Collision handling appends to `clearBlocks` (the cleared cubes when rows
are deleted, nothing otherwise). -/
theorem handleCollisions_clearBlocks (s : State) :
    ∃ t : List Cube, (Tick.handleCollisions s).clearBlocks = s.clearBlocks ++ t := by
  unfold Tick.handleCollisions
  dsimp only
  split
  · exact ⟨_, rfl⟩
  · exact ⟨[], (List.append_nil _).symm⟩

/-- A Tick appends to `clearBlocks` (and only via collision handling). -/
theorem tickApply_clearBlocks (e : Int) (s : State) :
    ∃ t : List Cube, (Tick.apply e s).clearBlocks = s.clearBlocks ++ t := by
  unfold Tick.apply
  dsimp only
  split
  · exact ⟨[], (List.append_nil _).symm⟩
  · split
    · exact handleCollisions_clearBlocks s
    · exact ⟨[], (List.append_nil _).symm⟩

/-- C2 amended: `clearBlocks` is append-only, never cleared: every reducer
transition either leaves it unchanged or appends the cubes that transition
removes (line clears append the cleared cubes; Restart appends all grid
cubes plus the old active block), so entries accumulate across transitions
instead of being rebuilt from scratch each time. -/
theorem c2_clearBlocks_append_only (s : State) (a : Action) :
    ∃ t : List Cube, (reduceState s a).clearBlocks = s.clearBlocks ++ t := by
  cases a with
  | tick e =>
    unfold reduceState
    dsimp only
    split
    · exact tickApply_clearBlocks e s
    · exact ⟨[], (List.append_nil _).symm⟩
  | move d => exact ⟨[], (List.append_nil _).symm⟩
  | rotate d =>
    refine ⟨[], ?_⟩
    rw [List.append_nil]
    unfold reduceState applyAction Rotate.apply
    dsimp only
    cases h : s.activeBlock.find? (fun cube => cube.center) <;> simp [h]
  | drop =>
    exact ⟨[], by rw [List.append_nil]; exact dropGo_clearBlocks s.grid GRID_RANGE.NUM_OF_ROWS s⟩
  | restart =>
    unfold reduceState applyAction Restart.apply
    dsimp only
    split
    · exact ⟨_, List.append_assoc _ _ _⟩
    · exact ⟨[], (List.append_nil _).symm⟩
  | generateBlock i => exact ⟨[], (List.append_nil _).symm⟩

/-- A state carrying a leftover `clearBlocks` entry from an earlier
transition. -/
def c2State : State := { initialState with clearBlocks := [placedCube 0 0] }

/-- C2 counterexample: an un-throttled Tick that removes nothing (the grid is
untouched, the block merely falls) does not yield an empty `clearBlocks` —
the stale entry from the earlier transition is still there, so `clearBlocks`
is not cleared and refilled on every transition. -/
theorem c2_counterexample :
    (reduceState c2State (Action.tick 0)).grid = c2State.grid ∧
    (reduceState c2State (Action.tick 0)).clearBlocks = [placedCube 0 0] ∧
    (reduceState c2State (Action.tick 0)).clearBlocks ≠ [] := by
  decide

/-! ## Claim C3 -/

/-- C3: when the active block locks (Tick detects a fall collision while the
game is running) and `k ≥ 1` of the candidate rows are fully occupied, the
transition adds exactly `NUM_OF_COLUMNS * k` to the score and recomputes the
level as `floor(newScore / NUM_OF_COLUMNS)`. -/
theorem c3_line_clear_scoring (s : State) (e : Int) (k : Nat)
    (hend : s.gameEnd = false)
    (hcol : checkBlockCollision [checkCubeRowExceedsBoundaries, cantMoveDown s.grid]
      s.activeBlock = true)
    (hk : (getDeletingRows (setBlockInArray s.grid s.activeBlock)
      (getRecentlyPlacedRows s.activeBlock)).length = k)
    (hk1 : 1 ≤ k) :
    (Tick.apply e s).score = s.score + (GRID_RANGE.NUM_OF_COLUMNS : Int) * k ∧
    (Tick.apply e s).level =
      Int.fdiv (s.score + (GRID_RANGE.NUM_OF_COLUMNS : Int) * k)
        (GRID_RANGE.NUM_OF_COLUMNS : Int) := by
  unfold Tick.apply Tick.handleCollisions Tick.handleBlockClear
  dsimp only
  rw [hend, hcol, hk]
  simp only [Bool.false_eq_true, if_false, if_true]
  rw [if_pos (by omega : k > 0)]
  exact ⟨rfl, rfl⟩

/-- Lock-and-clear fixture: the bottom row has columns 0–7 occupied and the
O-shaped active block (columns 8–9, rows 18–19) completes it; the block
collides (a cube sits in row 19) and exactly one full row results. -/
def c3State : State :=
  { initialState with
    grid := mkGrid (fun i j => decide (i = 19) && decide (j ≤ 7))
    activeBlock := [placedCube 18 8, placedCube 18 9, placedCube 19 8, placedCube 19 9] }

/-- C3 witness: the scoring theorem at the lock-and-clear fixture, `k = 1`:
score goes from 0 to 10 and the level to `fdiv 10 10 = 1`. -/
theorem c3_witness :
    (Tick.apply 0 c3State).score = c3State.score + (GRID_RANGE.NUM_OF_COLUMNS : Int) * (1 : Nat) ∧
    (Tick.apply 0 c3State).level =
      Int.fdiv (c3State.score + (GRID_RANGE.NUM_OF_COLUMNS : Int) * (1 : Nat))
        (GRID_RANGE.NUM_OF_COLUMNS : Int) :=
  c3_line_clear_scoring c3State 0 1 rfl (by decide) (by decide) (by decide)

/-! ## Claim C4 -/

/-- One-step unfolding of the fuelled Drop recursion. -/
theorem dropGo_succ (g : Grid) (fuel : Nat) (s : State) :
    Drop.dropGo g (fuel + 1) s =
      if Drop.canDrop g (s.activeBlock.map (moveCube 1))
      then Drop.dropGo g fuel { s with activeBlock := s.activeBlock.map (moveCube 1) }
      else s := rfl

/-- Once any cube's row plus the remaining fuel passes the boundary row,
the state Drop returns is one from which the once-moved block fails
`canDrop` — the source recursion's stopping condition. -/
theorem dropGo_stops (g : Grid) :
    ∀ (fuel : Nat) (s : State) (c : Cube), c ∈ s.activeBlock →
      (18 : Int) < c.grid_row + fuel →
      Drop.canDrop g ((Drop.dropGo g fuel s).activeBlock.map (moveCube 1)) = false := by
  intro fuel
  induction fuel with
  | zero =>
    intro s c hc hrow
    show Drop.canDrop g (s.activeBlock.map (moveCube 1)) = false
    unfold Drop.canDrop
    simp only [Bool.not_eq_false']
    rw [checkBlockCollision_eq_true_iff]
    refine ⟨moveCube 1 c, List.mem_map_of_mem _ hc, ?_⟩
    simp only [checkCollisions, List.any_cons, List.any_nil, Bool.or_false,
      Bool.or_eq_true, checkCubeRowExceedsBoundaries, moveCube, decide_eq_true_eq,
      GRID_RANGE.NUM_OF_ROWS]
    left
    left
    push_cast at hrow ⊢
    omega
  | succ n ih =>
    intro s c hc hrow
    rw [dropGo_succ]
    split
    · exact ih _ (moveCube 1 c) (List.mem_map_of_mem _ hc)
        (by simp only [moveCube]; push_cast at hrow ⊢; omega)
    · next h => exact (Bool.not_eq_true _).mp h

/-- Adding one unit of fuel beyond the bound does not change the result:
the recursion has already stopped. -/
theorem dropGo_fuel_succ (g : Grid) :
    ∀ (fuel : Nat) (s : State) (c : Cube), c ∈ s.activeBlock →
      (18 : Int) < c.grid_row + fuel →
      Drop.dropGo g (fuel + 1) s = Drop.dropGo g fuel s := by
  intro fuel
  induction fuel with
  | zero =>
    intro s c hc hrow
    have hstop : Drop.canDrop g (s.activeBlock.map (moveCube 1)) = false :=
      dropGo_stops g 0 s c hc hrow
    rw [dropGo_succ, if_neg (by simp_all)]
    rfl
  | succ n ih =>
    intro s c hc hrow
    rw [dropGo_succ, dropGo_succ g n s]
    split
    · exact ih _ (moveCube 1 c) (List.mem_map_of_mem _ hc)
        (by simp only [moveCube]; push_cast at hrow ⊢; omega)
    · rfl

/-- C4 amended: `Drop.apply` terminates — for a block containing a cube with
a non-negative row (in particular a block inside the grid), any fuel from 19
up (the grid height suffices) computes the recursion's fixed result — and the
resulting state is the LAST one from which one further one-row-down move
still passes `canDrop`: moving the resulting block down once more fails the
check (some moved cube would reach row `NUM_OF_ROWS − 1`, or the cell below
the moved cube — two rows below the resting cube — is occupied).  Because
`cantMoveDown` is evaluated on the already-moved block, the block can come to
rest with the cell directly below it still empty, one row higher than where
Tick locks it; the claim's "lowest cube adjacent to the floor or directly
above an occupied cell" does not hold. -/
theorem c4_drop_termination (s : State) (c : Cube) (hc : c ∈ s.activeBlock)
    (h0 : 0 ≤ c.grid_row) (fuel : Nat) (hf : 19 ≤ fuel) :
    Drop.dropGo s.grid fuel s = Drop.apply s ∧
    Drop.canDrop s.grid ((Drop.apply s).activeBlock.map (moveCube 1)) = false := by
  have key : ∀ (d fuel0 : Nat), (18 : Int) < c.grid_row + fuel0 →
      Drop.dropGo s.grid (fuel0 + d) s = Drop.dropGo s.grid fuel0 s := by
    intro d
    induction d with
    | zero => intro f0 _; rfl
    | succ n ih =>
      intro f0 h
      have step : Drop.dropGo s.grid (f0 + n + 1) s = Drop.dropGo s.grid (f0 + n) s :=
        dropGo_fuel_succ s.grid (f0 + n) s c hc (by push_cast at h ⊢; omega)
      calc Drop.dropGo s.grid (f0 + (n + 1)) s
          = Drop.dropGo s.grid (f0 + n) s := step
        _ = Drop.dropGo s.grid f0 s := ih f0 h
  have h19 : (18 : Int) < c.grid_row + (19 : Nat) := by push_cast; omega
  constructor
  · have e1 : Drop.dropGo s.grid fuel s = Drop.dropGo s.grid 19 s := by
      have := key (fuel - 19) 19 h19
      rwa [Nat.add_sub_cancel' hf] at this
    have e2 : Drop.apply s = Drop.dropGo s.grid 19 s := key 1 19 h19
    rw [e1, e2]
  · have h20 : (18 : Int) < c.grid_row + (GRID_RANGE.NUM_OF_ROWS : Nat) := by
      simp only [GRID_RANGE.NUM_OF_ROWS]
      push_cast
      omega
    exact dropGo_stops s.grid GRID_RANGE.NUM_OF_ROWS s c hc h20

/-- C4 witness: the amended theorem at the initial state (O block at rows
0–1 on the empty grid): fuel 19 equals `Drop.apply` and the moved result
fails `canDrop`. -/
theorem c4_witness :
    Drop.dropGo initialState.grid 19 initialState = Drop.apply initialState ∧
    Drop.canDrop initialState.grid
      ((Drop.apply initialState).activeBlock.map (moveCube 1)) = false :=
  c4_drop_termination initialState (createCube 0 4 4 false) (by decide) (by decide) 19
    (by decide)

/-- A state with the starting O block high above two placed cubes on the
bottom row (row 19, columns 4 and 5). -/
def c4State : State :=
  { initialState with
    grid := mkGrid (fun i j => decide (i = 19) && (decide (j = 4) || decide (j = 5))) }

/-- C4 counterexample: dropping the O block (columns 4–5) onto a stack whose
top occupied row is 19 leaves every cube at row ≤ 17 with the cell DIRECTLY
below it empty — the lowest cubes rest at row 17, one row above where Tick
would lock them (row 18), with a one-row gap above the occupied cells; so the
resulting lowest cube is neither adjacent to the grid floor boundary nor
directly above an occupied cell. -/
theorem c4_counterexample :
    c4State.activeBlock.all (fun cube =>
      decide (0 ≤ cube.grid_row) && decide (cube.grid_row ≤ 19) &&
      decide (0 ≤ cube.grid_col) && decide (cube.grid_col ≤ 9)) = true ∧
    (Drop.apply c4State).activeBlock.length = 4 ∧
    (Drop.apply c4State).activeBlock.all (fun cube =>
      decide (cube.grid_row ≤ 17) &&
      (cellAt c4State.grid (cube.grid_row + 1) cube.grid_col).isNone) = true ∧
    cellAt c4State.grid 19 4 = some (placedCube 19 4) := by
  decide

/-! ## Claim C8 -/

/-- Every cell of the empty grid is empty. -/
theorem cellAtN_empty (i j : Nat) :
    cellAtN (generate2DArray (fun _ _ => none)) i j = none := by
  rw [cellAtN_generate2DArray]
  split
  · split <;> rfl
  · rfl

/-- C8: on an otherwise empty grid, when the block has a pivot cube and
neither rotation is rejected by the boundary/occupancy check, rotating
clockwise and then anticlockwise returns every cube of the active block to
its original grid row and column. -/
theorem c8_rotate_inverse (s : State) (p : Cube)
    (hp : s.activeBlock.find? (fun cube => cube.center) = some p)
    (_hempty : ∀ i j : Nat, cellAtN s.grid i j = none)
    (h1 : Rotate.canRotate s.grid
      (s.activeBlock.map (Rotate.rotateCube RotDirection.clockwise p)) = true)
    (h2 : Rotate.canRotate s.grid
      ((s.activeBlock.map (Rotate.rotateCube RotDirection.clockwise p)).map
        (Rotate.rotateCube RotDirection.anticlockwise
          (Rotate.rotateCube RotDirection.clockwise p p))) = true) :
    ((Rotate.apply RotDirection.anticlockwise
        (Rotate.apply RotDirection.clockwise s)).activeBlock).map
      (fun cube => (cube.grid_row, cube.grid_col)) =
    s.activeBlock.map (fun cube => (cube.grid_row, cube.grid_col)) := by
  have e1 : Rotate.apply RotDirection.clockwise s =
      { s with
        activeBlock := s.activeBlock.map (Rotate.rotateCube RotDirection.clockwise p) } := by
    unfold Rotate.apply
    rw [hp]
    dsimp only
    rw [if_pos h1]
  rw [e1]
  have hcenter : ((fun cube => cube.center) ∘
      Rotate.rotateCube RotDirection.clockwise p) = (fun cube => cube.center) := by
    funext cube
    rfl
  have e2 : (s.activeBlock.map (Rotate.rotateCube RotDirection.clockwise p)).find?
      (fun cube => cube.center) = some (Rotate.rotateCube RotDirection.clockwise p p) := by
    rw [List.find?_map, hcenter, hp]
    rfl
  unfold Rotate.apply
  rw [e2]
  dsimp only
  rw [if_pos h2, List.map_map, List.map_map]
  apply List.map_congr_left
  intro cube _
  simp only [Function.comp_apply, Rotate.rotateCube, reduceCtorEq, if_false, if_true,
    Prod.mk.injEq]
  refine ⟨by omega, by omega⟩

/-- The initial position with a T block (which has a pivot) as active. -/
def c8State : State := { initialState with activeBlock := createBlock "T" 4 }

/-- C8 witness: the rotation round-trip at a freshly spawned T block on the
empty grid returns every cube to its original row and column. -/
theorem c8_witness :
    ((Rotate.apply RotDirection.anticlockwise
        (Rotate.apply RotDirection.clockwise c8State)).activeBlock).map
      (fun cube => (cube.grid_row, cube.grid_col)) =
    c8State.activeBlock.map (fun cube => (cube.grid_row, cube.grid_col)) :=
  c8_rotate_inverse c8State (createCube 1 5 4 true) (by decide)
    (fun i j => cellAtN_empty i j) (by decide) (by decide)

/-! ## Claim C10 -/

/-- An action trace the running game produces: stage the I shape
(`GenerateBlock(0)`), let the O block fall and lock (19 un-throttled ticks),
let the spawned T block fall and lock on top of it (17 more ticks); the
second lock spawns the staged I block at rows 0, columns 4–7, pivot (0, 5). -/
def c10Actions : List Action :=
  Action.generateBlock 0 :: List.replicate 36 (Action.tick 0)

/-- The state reached by `c10Actions`: a freshly spawned I block is active. -/
def c10State : State := c10Actions.foldl reduceState initialState

set_option maxRecDepth 100000 in
/-- C10: at the reachable state `c10State` the active block is entirely in
bounds, yet rotating it clockwise makes `canRotate` evaluate
`checkCurrentCell` — FIRST in its condition list, before any boundary
predicate — at grid row −1 (the I block's leftmost cube rotates about pivot
(0,5) to (−1,5)); in the source this reads `grid[-1][5]`, i.e.
`undefined[5]`, which throws a TypeError, contradicting the spec's guarantee
that no action variant may throw. -/
theorem c10_rotate_probes_row_negative :
    Reachable c10State ∧
    c10State.activeBlock.all (fun cube =>
      decide (0 ≤ cube.grid_row) && decide (cube.grid_row ≤ 19) &&
      decide (0 ≤ cube.grid_col) && decide (cube.grid_col ≤ 9)) = true ∧
    (Rotate.probedCells RotDirection.clockwise c10State).contains (-1, 5) = true := by
  refine ⟨⟨c10Actions, rfl⟩, ?_⟩
  decide

/-! ## Claim C6 -/

/-- Unfolding a `cellAtN` read into positional lookups. -/
theorem cellAtN_eq_some_iff (g : Grid) (i j : Nat) (cube : Cube) :
    cellAtN g i j = some cube ↔
      ∃ row, g[i]? = some row ∧ row[j]? = some (some cube) := by
  unfold cellAtN
  cases hg : g[i]? with
  | none => simp [List.getD_eq_getElem?_getD, hg]
  | some row =>
    simp only [List.getD_eq_getElem?_getD, hg, Option.getD_some, Option.some.injEq]
    cases hj : row[j]? with
    | none => simp [hj]
    | some o =>
      simp only [hj, Option.getD_some, Option.some.injEq]
      constructor
      · rintro rfl
        exact ⟨row, rfl, hj⟩
      · rintro ⟨row', hrow', ho⟩
        subst hrow'
        rw [hj, Option.some.injEq] at ho
        exact ho

/-- The cubes surviving `removeRowsAndShiftDown`'s row filter are exactly
the placed cubes whose `grid_row` is not a deleted row. -/
theorem mem_survivors_iff (g : Grid) (R : List Int) (cube : Cube) :
    cube ∈ survivors g R ↔
      (∃ i j : Nat, cellAtN g i j = some cube) ∧ R.contains cube.grid_row = false := by
  constructor
  · intro h
    unfold survivors at h
    rw [List.mem_filterMap] at h
    obtain ⟨o, ho, hid⟩ := h
    rw [List.mem_flatten] at ho
    obtain ⟨l, hl, hol⟩ := ho
    rw [List.mem_map] at hl
    obtain ⟨row, hrow, rfl⟩ := hl
    rw [List.mem_filter] at hol
    obtain ⟨hmem, hq⟩ := hol
    cases o with
    | none => simp at hq
    | some cube' =>
      have hc : cube' = cube := by simpa using hid
      subst hc
      have hcont : R.contains cube'.grid_row = false := by simpa using hq
      obtain ⟨i, hi⟩ := List.mem_iff_getElem?.mp hrow
      obtain ⟨j, hj⟩ := List.mem_iff_getElem?.mp hmem
      exact ⟨⟨i, j, (cellAtN_eq_some_iff g i j cube').mpr ⟨row, hi, hj⟩⟩, hcont⟩
  · rintro ⟨⟨i, j, hcell⟩, hcont⟩
    obtain ⟨row, hi, hj⟩ := (cellAtN_eq_some_iff g i j cube).mp hcell
    unfold survivors
    rw [List.mem_filterMap]
    refine ⟨some cube, ?_, rfl⟩
    rw [List.mem_flatten]
    refine ⟨row.filter _, List.mem_map.mpr ⟨row, List.getElem?_mem hi, rfl⟩, ?_⟩
    rw [List.mem_filter]
    exact ⟨List.getElem?_mem hj, by simpa using hcont⟩

/-- Case analysis on a cube of the shifted-survivor list (for a coherent
grid and a contiguous deleted band `[minR, minR+k)`): it is either a cube
from a row above the band moved down `k` rows, or a cube from a row below
the band kept unchanged. -/
theorem shiftedSurvivors_cases (g : Grid) (R : List Int) (minR k : Nat)
    (hcoh : Coherent g) (hlen : R.length = k)
    (hmem : ∀ r : Int, R.contains r = true ↔ ((minR : Int) ≤ r ∧ r < (minR : Int) + (k : Int)))
    (hmin : mathMin R = (minR : Int)) :
    ∀ cube' ∈ shiftedSurvivors g R, ∃ (i0 j0 : Nat) (cube : Cube),
      cellAtN g i0 j0 = some cube ∧ cube.grid_row = (i0 : Int) ∧ cube.grid_col = (j0 : Int) ∧
      ((i0 < minR ∧ cube' = moveCube (k : Int) cube) ∨
       (minR + k ≤ i0 ∧ cube' = cube)) := by
  intro cube' h
  unfold shiftedSurvivors at h
  rw [List.mem_map] at h
  obtain ⟨cube, hsurv, rfl⟩ := h
  rw [mem_survivors_iff] at hsurv
  obtain ⟨⟨i0, j0, hcell⟩, hcont⟩ := hsurv
  obtain ⟨hrow, hcol⟩ := hcoh i0 j0 cube hcell
  refine ⟨i0, j0, cube, hcell, hrow, hcol, ?_⟩
  have hnotin : ¬((minR : Int) ≤ (i0 : Int) ∧ (i0 : Int) < (minR : Int) + (k : Int)) := by
    intro hco
    rw [hrow] at hcont
    rw [(hmem (i0 : Int)).mpr hco] at hcont
    cases hcont
  by_cases hlt : i0 < minR
  · left
    refine ⟨hlt, ?_⟩
    rw [hrow, hmin, hlen, if_pos (show ((i0 : Int) < (minR : Int)) by exact_mod_cast hlt)]
  · right
    have hge : minR + k ≤ i0 := by
      push_cast at hnotin
      omega
    refine ⟨hge, ?_⟩
    rw [hrow, hmin, if_neg (show ¬((i0 : Int) < (minR : Int)) by exact_mod_cast hlt)]

/-- A cube above the deleted band enters the shifted-survivor list moved
down by `k` rows. -/
theorem shifted_mem_shiftedSurvivors (g : Grid) (R : List Int) (minR k : Nat)
    (hcoh : Coherent g) (hlen : R.length = k)
    (hmem : ∀ r : Int, R.contains r = true ↔ ((minR : Int) ≤ r ∧ r < (minR : Int) + (k : Int)))
    (hmin : mathMin R = (minR : Int)) (i0 j0 : Nat) (cube : Cube)
    (hcell : cellAtN g i0 j0 = some cube) (hi0 : i0 < minR) :
    moveCube (k : Int) cube ∈ shiftedSurvivors g R := by
  obtain ⟨hrow, _⟩ := hcoh i0 j0 cube hcell
  unfold shiftedSurvivors
  rw [List.mem_map]
  refine ⟨cube, ?_, ?_⟩
  · rw [mem_survivors_iff]
    refine ⟨⟨i0, j0, hcell⟩, ?_⟩
    rw [hrow, ← Bool.not_eq_true, hmem]
    omega
  · rw [hrow, hmin, hlen, if_pos (show ((i0 : Int) < (minR : Int)) by exact_mod_cast hi0)]

/-- A cube below the deleted band enters the shifted-survivor list
unchanged. -/
theorem unshifted_mem_shiftedSurvivors (g : Grid) (R : List Int) (minR k : Nat)
    (hcoh : Coherent g) (_hlen : R.length = k)
    (hmem : ∀ r : Int, R.contains r = true ↔ ((minR : Int) ≤ r ∧ r < (minR : Int) + (k : Int)))
    (hmin : mathMin R = (minR : Int)) (i0 j0 : Nat) (cube : Cube)
    (hcell : cellAtN g i0 j0 = some cube) (hi0 : minR + k ≤ i0) :
    cube ∈ shiftedSurvivors g R := by
  obtain ⟨hrow, _⟩ := hcoh i0 j0 cube hcell
  unfold shiftedSurvivors
  rw [List.mem_map]
  refine ⟨cube, ?_, ?_⟩
  · rw [mem_survivors_iff]
    refine ⟨⟨i0, j0, hcell⟩, ?_⟩
    rw [hrow, ← Bool.not_eq_true, hmem]
    omega
  · rw [hrow, hmin, if_neg (show ¬((i0 : Int) < (minR : Int)) by omega)]

/-- C6 amended: for a coherent grid and a non-empty CONTIGUOUS set of
deleted rows `{minR, …, minR+k−1}` (all the game ever produces, since a
tetromino spans at most two adjacent rows), `removeRowsAndShiftDown` returns
the full `NUM_OF_ROWS × NUM_OF_COLUMNS` grid in which the top `k` rows are
empty, every row `i` with `k ≤ i < minR+k` holds the cube that was at row
`i−k` (strictly above `minR`) moved down `k` rows with its pixel `y`
recomputed, and every row `i ≥ minR+k` keeps its cube unchanged; in
particular every cube of a deleted row is gone, survivors above the band
shift down by `k`, and survivors below it keep row, column and pixels.  For
NON-contiguous deleted rows the claim fails: a shifted cube can land on a
kept survivor's position and the position lookup keeps only one of them. -/
theorem c6_remove_rows_contiguous (g : Grid) (R : List Int) (minR k : Nat)
    (hcoh : Coherent g) (_hk : 1 ≤ k) (hlen : R.length = k)
    (hmem : ∀ r : Int, R.contains r = true ↔ ((minR : Int) ≤ r ∧ r < (minR : Int) + (k : Int)))
    (hmin : mathMin R = (minR : Int)) :
    (removeRowsAndShiftDown g R).length = GRID_RANGE.NUM_OF_ROWS ∧
    (∀ row ∈ removeRowsAndShiftDown g R, row.length = GRID_RANGE.NUM_OF_COLUMNS) ∧
    (∀ i j : Nat, i < GRID_RANGE.NUM_OF_ROWS → j < GRID_RANGE.NUM_OF_COLUMNS →
      cellAtN (removeRowsAndShiftDown g R) i j =
        if i < k then none
        else if i < minR + k then (cellAtN g (i - k) j).map (moveCube (k : Int))
        else cellAtN g i j) := by
  refine ⟨?_, ?_, ?_⟩
  · simp [removeRowsAndShiftDown, generate2DArray]
  · intro row h
    unfold removeRowsAndShiftDown generate2DArray at h
    rw [List.mem_map] at h
    obtain ⟨n, _, rfl⟩ := h
    simp
  · intro i j hi hj
    have hLHS : cellAtN (removeRowsAndShiftDown g R) i j =
        (shiftedSurvivors g R).find? (fun cube =>
          cube.grid_row == (i : Int) && ((j : Int) == cube.grid_col)) := by
      unfold removeRowsAndShiftDown
      rw [cellAtN_generate2DArray, if_pos hi, if_pos hj]
    rw [hLHS]
    by_cases h1 : i < k
    · rw [if_pos h1, List.find?_eq_none]
      intro b hb
      obtain ⟨i0, j0, cube, _, hrow, hcol, hcase⟩ :=
        shiftedSurvivors_cases g R minR k hcoh hlen hmem hmin b hb
      simp only [Bool.and_eq_true, beq_iff_eq, not_and]
      intro hbr _
      rcases hcase with ⟨hi0, rfl⟩ | ⟨hi0, rfl⟩
      · simp only [moveCube, hrow] at hbr
        omega
      · rw [hrow] at hbr
        omega
    · rw [if_neg h1]
      by_cases h2 : i < minR + k
      · rw [if_pos h2]
        cases hcell2 : cellAtN g (i - k) j with
        | some cube =>
          obtain ⟨hrow, hcol⟩ := hcoh _ _ _ hcell2
          rw [Option.map_some']
          apply find?_eq_some_of_unique
          · exact shifted_mem_shiftedSurvivors g R minR k hcoh hlen hmem hmin (i - k) j cube
              hcell2 (by omega)
          · simp only [moveCube, Bool.and_eq_true, beq_iff_eq, hrow, hcol, and_true]
            omega
          · intro b hb hpred
            obtain ⟨i0, j0, cube2, hcell0, hrow0, hcol0, hcase⟩ :=
              shiftedSurvivors_cases g R minR k hcoh hlen hmem hmin b hb
            simp only [Bool.and_eq_true, beq_iff_eq] at hpred
            rcases hcase with ⟨hi0, hbe⟩ | ⟨hi0, hbe⟩ <;> subst hbe
            · have hbr : cube2.grid_row + (k : Int) = (i : Int) := by
                simpa [moveCube] using hpred.1
              have hbc : (j : Int) = cube2.grid_col := hpred.2
              have hi0e : i0 = i - k := by
                rw [hrow0] at hbr
                omega
              have hj0e : j0 = j := by
                rw [hcol0] at hbc
                omega
              subst hi0e
              subst hj0e
              rw [hcell2] at hcell0
              rw [Option.some.injEq] at hcell0
              rw [hcell0]
            · exfalso
              have hbr : b.grid_row = (i : Int) := hpred.1
              rw [hrow0] at hbr
              omega
        | none =>
          rw [Option.map_none', List.find?_eq_none]
          intro b hb
          obtain ⟨i0, j0, cube2, hcell0, hrow0, hcol0, hcase⟩ :=
            shiftedSurvivors_cases g R minR k hcoh hlen hmem hmin b hb
          simp only [Bool.and_eq_true, beq_iff_eq, not_and]
          intro hbr hbc
          rcases hcase with ⟨hi0, hbe⟩ | ⟨hi0, hbe⟩ <;> subst hbe
          · simp only [moveCube, hrow0] at hbr
            simp only [moveCube, hcol0] at hbc
            have hi0e : i0 = i - k := by omega
            have hj0e : j0 = j := by omega
            subst hi0e
            subst hj0e
            rw [hcell2] at hcell0
            cases hcell0
          · rw [hrow0] at hbr
            omega
      · rw [if_neg h2]
        cases hcell2 : cellAtN g i j with
        | some cube =>
          obtain ⟨hrow, hcol⟩ := hcoh _ _ _ hcell2
          apply find?_eq_some_of_unique
          · exact unshifted_mem_shiftedSurvivors g R minR k hcoh hlen hmem hmin i j cube
              hcell2 (by omega)
          · simp [Bool.and_eq_true, beq_iff_eq, hrow, hcol]
          · intro b hb hpred
            obtain ⟨i0, j0, cube2, hcell0, hrow0, hcol0, hcase⟩ :=
              shiftedSurvivors_cases g R minR k hcoh hlen hmem hmin b hb
            simp only [Bool.and_eq_true, beq_iff_eq] at hpred
            rcases hcase with ⟨hi0, hbe⟩ | ⟨hi0, hbe⟩ <;> subst hbe
            · exfalso
              have hbr : cube2.grid_row + (k : Int) = (i : Int) := by
                simpa [moveCube] using hpred.1
              rw [hrow0] at hbr
              omega
            · have hbr : b.grid_row = (i : Int) := hpred.1
              have hbc : (j : Int) = b.grid_col := hpred.2
              have hi0e : i0 = i := by
                rw [hrow0] at hbr
                omega
              have hj0e : j0 = j := by
                rw [hcol0] at hbc
                omega
              subst hi0e
              subst hj0e
              rw [hcell2] at hcell0
              rw [Option.some.injEq] at hcell0
              rw [hcell0]
        | none =>
          rw [List.find?_eq_none]
          intro b hb
          obtain ⟨i0, j0, cube2, hcell0, hrow0, hcol0, hcase⟩ :=
            shiftedSurvivors_cases g R minR k hcoh hlen hmem hmin b hb
          simp only [Bool.and_eq_true, beq_iff_eq, not_and]
          intro hbr hbc
          rcases hcase with ⟨hi0, hbe⟩ | ⟨hi0, hbe⟩ <;> subst hbe
          · simp only [moveCube, hrow0] at hbr
            omega
          · rw [hrow0] at hbr
            rw [hcol0] at hbc
            have hi0e : i0 = i := by omega
            have hj0e : j0 = j := by omega
            subst hi0e
            subst hj0e
            rw [hcell2] at hcell0
            cases hcell0

/-- The contiguous deleted band `[17, 18]` as a membership interval. -/
theorem contains_17_18 (r : Int) :
    ([17, 18] : List Int).contains r = true ↔ ((17 : Nat) : Int) ≤ r ∧ r < ((17 : Nat) : Int) + ((2 : Nat) : Int) := by
  simp only [List.contains_cons, List.contains_nil, Bool.or_eq_true, beq_iff_eq,
    Bool.or_false]
  omega

/-- A coherent grid with a survivor above the band (row 15), a survivor
below it (row 19), and a cube inside the band (row 17) to be deleted. -/
def c6Grid : Grid :=
  mkGrid (fun i j =>
    (decide (i = 15) && decide (j ≤ 1)) || (decide (i = 19) && decide (j = 0)) ||
      (decide (i = 17) && decide (j = 0)))

/-- C6 witness: clearing the contiguous band `[17, 18]` of `c6Grid` puts the
row-15 cube (above the band) two rows down at row 17 with `y` recomputed,
keeps the row-19 cube (below the band) in place, empties the top rows, and
drops the deleted row-17 cube. -/
theorem c6_witness :
    cellAtN (removeRowsAndShiftDown c6Grid [17, 18]) 17 0 =
      (cellAtN c6Grid 15 0).map (moveCube ((2 : Nat) : Int)) ∧
    cellAtN (removeRowsAndShiftDown c6Grid [17, 18]) 19 0 = cellAtN c6Grid 19 0 ∧
    cellAtN (removeRowsAndShiftDown c6Grid [17, 18]) 1 0 = none := by
  have h := c6_remove_rows_contiguous c6Grid [17, 18] 17 2 (mkGrid_coherent _)
    (by decide) (by decide) contains_17_18 (by decide)
  refine ⟨?_, ?_, ?_⟩
  · simpa using h.2.2 17 0 (by decide) (by decide)
  · simpa using h.2.2 19 0 (by decide) (by decide)
  · simpa using h.2.2 1 0 (by decide) (by decide)

/-- A coherent grid with survivors at (2,0) and (4,0), used with the
NON-contiguous deleted rows `[3, 5]`. -/
def c6CexGrid : Grid :=
  mkGrid (fun i j => (decide (i = 2) && decide (j = 0)) || (decide (i = 4) && decide (j = 0)))

/-- C6 counterexample: with the non-contiguous deleted rows `[3, 5]`, the
surviving cube at (4,0) — at or below the minimum deleted row, so per the
claim it keeps its original row and column — is NOT in the rebuilt grid at
all: the cube from (2,0) shifts down by 2 onto (4,0), and the position
lookup keeps only that shifted cube. -/
theorem c6_counterexample :
    cellAtN (removeRowsAndShiftDown c6CexGrid [3, 5]) 4 0 =
      some (moveCube ((2 : Nat) : Int) (placedCube 2 0)) ∧
    moveCube ((2 : Nat) : Int) (placedCube 2 0) ≠ placedCube 4 0 ∧
    ((removeRowsAndShiftDown c6CexGrid [3, 5]).flatten.contains (some (placedCube 4 0))) =
      false := by
  decide

end Tetris
